import Mathlib

/-!
# Verification of the VNR → Yagt shared-dictionary converter

Shallow embedding of `src/index.js`, centred on the `VnrToYagtFormat`
transformation (lines 145–204 of the source).  The surrounding CLI / file
I/O glue is out of scope, as is the spec's §6.

Modelling conventions, chosen to track the JavaScript source:

* A parsed `<term>` record is a `SourceTerm`.  Every field the code reads is
  an `Option String`: `none` models an absent property (which reads as
  `undefined` in JavaScript).  The xml2js attribute object `$` is modelled by
  `attr : Option TermAttr`; reading `term.$.type` when `$` is absent throws a
  `TypeError`, so the per-record step returns `Except String`.
* A value stored in `tempFormat.terms` is a `MergedTerm`.  In the source it
  is a JavaScript object; here the bookkeeping properties
  (`sourceLanguage`, `multipleSourceLanguages`, `sourceLanguages`, `comment`)
  are structure fields and the per-language `language → text` properties are
  the insertion-ordered association list `fields`.  This separation is
  faithful whenever the incoming `language` codes are distinct from the four
  bookkeeping property names, which is the data model of the converter
  (language codes such as `en`, `fr`).  For `sourceLanguage` the source never
  distinguishes "property absent" from "property present with value
  `undefined`" (both read as `undefined`, both are omitted by
  `JSON.stringify`), so a single `Option String` models it; likewise a
  deleted `sourceLanguage` is `none`.  `sourceLanguages` is absent exactly
  while `multipleSourceLanguages` is unset in the source, so the absent array
  is modelled by `[]` with the flag `false`.
* `tempFormat.terms` itself is the insertion-ordered association list
  `List (String × MergedTerm)`; `jsSet` is JavaScript property assignment
  (overwrite in place, else append — an overwrite keeps the key's original
  position, as in JavaScript).
* The final `for (let key in tempFormat.terms)` loop enumerates keys in
  JavaScript own-property order: array-index-like keys first in ascending
  numeric order, then the remaining keys in insertion order (`jsKeyOrder`).
* `isNaN(pattern)` coerces the string with `Number(...)`; `jsStringIsNaN`
  models that coercion on strings (whitespace trimming, the empty string
  coercing to `0`, signed decimal / `Infinity` / hex / octal / binary
  literals).  String lengths are counted in characters; the source counts
  UTF-16 code units, which agrees on all non-astral text.
-/

set_option maxRecDepth 4096

/-- The xml2js attribute object `$` of a term element; the source reads its
`type` property (line 152). -/
structure TermAttr where
  type : Option String
  deriving Repr, DecidableEq

/-- One parsed `<term>` record, as the source reads it from
`object.grimoire.terms.term`.  `none` = property absent / `undefined`. -/
structure SourceTerm where
  attr : Option TermAttr
  sourceLanguage : Option String
  language : Option String
  text : Option String
  pattern : Option String
  regex : Option String
  comment : Option String
  deriving Repr, DecidableEq

/-- One value of `tempFormat.terms`, the per-pattern accumulating record. -/
structure MergedTerm where
  sourceLanguage : Option String
  multipleSourceLanguages : Bool
  sourceLanguages : List (Option String)
  comment : Option String
  fields : List (String × String)
  deriving Repr, DecidableEq

/-- One entry of the final `yagtFormat.terms` array:
`{ pattern: key, ...tempFormat.terms[key] }` (line 200). -/
structure OutputTerm where
  pattern : String
  data : MergedTerm
  deriving Repr, DecidableEq

/-- JavaScript truthiness of a possibly-absent string property:
`undefined` and `""` are falsy, every other string is truthy. -/
def jsTruthy : Option String → Bool
  | none => false
  | some s => !s.isEmpty

/-- JavaScript property-key conversion for `obj[x]` when `x` may be
`undefined`: the key becomes the string `"undefined"`. -/
def jsUndefKey : Option String → String
  | none => "undefined"
  | some s => s

/-- JavaScript property assignment on an insertion-ordered object:
overwrite in place when the key exists (keeping its position), else append. -/
def jsSet (temp : List (String × MergedTerm)) (k : String) (v : MergedTerm) :
    List (String × MergedTerm) :=
  match temp with
  | [] => [(k, v)]
  | (k2, v2) :: rest => if k2 = k then (k, v) :: rest else (k2, v2) :: jsSet rest k v

/-- ASCII decimal digit, by code point. -/
def jsDigit (c : Char) : Bool :=
  decide (48 ≤ c.toNat) && decide (c.toNat ≤ 57)

/-- Whitespace characters stripped by JavaScript `Number(string)` coercion
(the common ones, by code point; only non-numeric-looking strings are
affected by the exact set, and no theorem below depends on those). -/
def isJsWhitespace (c : Char) : Bool :=
  decide (c.toNat = 32) || decide (c.toNat = 9) || decide (c.toNat = 10) ||
    decide (c.toNat = 13) || decide (c.toNat = 11) || decide (c.toNat = 12) ||
    decide (c.toNat = 160) || decide (c.toNat = 65279)

/-- Strip JavaScript whitespace from both ends. -/
def trimJs (cs : List Char) : List Char :=
  ((cs.dropWhile isJsWhitespace).reverse.dropWhile isJsWhitespace).reverse

/-- Hexadecimal digit as accepted by a JavaScript `0x…` literal. -/
def isHexDigitJs (c : Char) : Bool :=
  jsDigit c || (97 ≤ c.toNat && c.toNat ≤ 102) || (65 ≤ c.toNat && c.toNat ≤ 70)

/-- Octal digit as accepted by a JavaScript `0o…` literal. -/
def isOctDigitJs (c : Char) : Bool :=
  48 ≤ c.toNat && c.toNat ≤ 55

/-- Binary digit as accepted by a JavaScript `0b…` literal. -/
def isBinDigitJs (c : Char) : Bool :=
  c = '0' || c = '1'

/-- Recogniser for the exponent part of a JavaScript string decimal literal
(run on the remainder after the integer/fraction digits). -/
def expPartOk : List Char → Bool
  | [] => true
  | c :: rest =>
    if c = 'e' || c = 'E' then
      match rest with
      | [] => false
      | d :: ds =>
        if d = '+' || d = '-' then !ds.isEmpty && ds.all jsDigit
        else (d :: ds).all jsDigit
    else false

/-- Recogniser for an unsigned JavaScript string decimal literal:
`Infinity`, `digits [. digits] [exp]`, or `. digits [exp]`. -/
def unsignedDecOk (cs : List Char) : Bool :=
  if cs = "Infinity".toList then true
  else
    let ds := cs.takeWhile jsDigit
    let rest := cs.dropWhile jsDigit
    if ds.isEmpty then
      match rest with
      | '.' :: r2 => !(r2.takeWhile jsDigit).isEmpty && expPartOk (r2.dropWhile jsDigit)
      | _ => false
    else
      match rest with
      | [] => true
      | '.' :: r2 => expPartOk (r2.dropWhile jsDigit)
      | _ => expPartOk rest

/-- Recogniser for a non-decimal (hex/octal/binary) or decimal JavaScript
string numeric literal without a sign. -/
def nonDecOrDec : List Char → Bool
  | c1 :: c2 :: rest =>
    if c1 = '0' && (c2 = 'x' || c2 = 'X') then !rest.isEmpty && rest.all isHexDigitJs
    else if c1 = '0' && (c2 = 'o' || c2 = 'O') then !rest.isEmpty && rest.all isOctDigitJs
    else if c1 = '0' && (c2 = 'b' || c2 = 'B') then !rest.isEmpty && rest.all isBinDigitJs
    else unsignedDecOk (c1 :: c2 :: rest)
  | cs => unsignedDecOk cs

/-- Recogniser for a full (trimmed, non-empty) JavaScript string numeric
literal: an optional sign followed by a decimal literal, or an unsigned
non-decimal literal. -/
def strNumericOk : List Char → Bool
  | [] => false
  | c :: rest =>
    if c = '+' || c = '-' then unsignedDecOk rest
    else nonDecOrDec (c :: rest)

/-- JavaScript `isNaN(s)` for a string `s`: trim, treat the empty remainder
as `0` (not NaN), otherwise NaN iff the remainder is not a numeric literal. -/
def jsStringIsNaN (s : String) : Bool :=
  let cs := trimJs s.toList
  if cs.isEmpty then false else !strNumericOk cs

/-- Whether a string is a JavaScript array-index-like property key (the
canonical decimal form of an integer below `2^32 - 1`): such keys are
enumerated first, in ascending numeric order, by `for…in`. -/
def isArrayIndexKey (s : String) : Bool :=
  let cs := s.toList
  !cs.isEmpty && cs.all jsDigit &&
    (decide (cs = ['0']) || decide (cs.headD ' ' ≠ '0')) &&
    decide ((s.toNat?).getD 0 < 4294967295)

/-- Insert a key into a list sorted by numeric value (for the array-index
portion of JavaScript key enumeration). -/
def insertByNat (x : String) : List String → List String
  | [] => [x]
  | y :: ys =>
    if (x.toNat?).getD 0 ≤ (y.toNat?).getD 0 then x :: y :: ys else y :: insertByNat x ys

/-- Sort keys by numeric value (insertion sort). -/
def sortByNat : List String → List String
  | [] => []
  | x :: xs => insertByNat x (sortByNat xs)

/-- JavaScript `for…in` own-property key order: array-index-like keys in
ascending numeric order first, then the remaining keys in insertion order. -/
def jsKeyOrder (keys : List String) : List String :=
  sortByNat (keys.filter isArrayIndexKey) ++ keys.filter fun k => !isArrayIndexKey k

/-- JavaScript property assignment for the `language → text` properties of a
record: overwrite in place when present, else append. -/
def setField (k v : String) : List (String × String) → List (String × String)
  | [] => [(k, v)]
  | (k2, v2) :: rest => if k2 = k then (k, v) :: rest else (k2, v2) :: setField k v rest

/-- The fresh record built for a pattern seen for the first time
(lines 183–188): `sourceLanguage` is copied (possibly `undefined`), the
`language → text` property is set, and `comment` only when truthy. -/
def newMergedTerm (t : SourceTerm) : MergedTerm :=
  { sourceLanguage := t.sourceLanguage
    multipleSourceLanguages := false
    sourceLanguages := []
    comment := if jsTruthy t.comment then t.comment else none
    fields := [(jsUndefKey t.language, t.text.getD "")] }

/-- Merging an incoming term into the existing record found at its raw
pattern (lines 161–179).  Branches in source order: same `sourceLanguage`
(strict equality, `undefined` included) — do nothing; already multiple —
append if absent; otherwise switch to multiple mode, pushing the old and the
new value and deleting the singular field.  Finally the `language → text`
property is set (overwriting: last write wins). -/
def mergeInto (m : MergedTerm) (t : SourceTerm) : MergedTerm :=
  let m1 :=
    if m.sourceLanguage = t.sourceLanguage then m
    else if m.multipleSourceLanguages then
      if m.sourceLanguages.contains t.sourceLanguage then m
      else { m with sourceLanguages := m.sourceLanguages ++ [t.sourceLanguage] }
    else
      { m with multipleSourceLanguages := true
               sourceLanguages := [m.sourceLanguage, t.sourceLanguage]
               sourceLanguage := none }
  { m1 with fields := setField (jsUndefKey t.language) (t.text.getD "") m1.fields }

/-- The loop body for one record (lines 149–195).

Lines 151 and 152 of the source compare a boolean negation against a string
(`!term.sourceLanguage === "ja"`, `!term.$.type === "trans"`); a boolean is
never strictly equal to a string, so both conditions are constantly `false`
and filter nothing — but reading `term.$.type` throws a `TypeError` when the
record has no `$` attribute object, hence the `Except`.  The remaining
conditions skip the record when `text` or `pattern` is falsy, when the
pattern coerces to a number, or when its length is at most 1.  The lookup on
line 159 uses the RAW pattern, while insertion (lines 190–194) wraps the key
in slashes when `regex` is the string `"true"`. -/
def processTerm (temp : List (String × MergedTerm)) (t : SourceTerm) :
    Except String (List (String × MergedTerm)) :=
  match t.attr with
  | none => .error "TypeError: cannot read type of undefined"
  | some _ =>
    if !jsTruthy t.text then .ok temp
    else if !jsTruthy t.pattern then .ok temp
    else if !jsStringIsNaN (t.pattern.getD "") then .ok temp
    else if !(decide ((t.pattern.getD "").length > 1)) then .ok temp
    else
      match List.lookup (t.pattern.getD "") temp with
      | some existed => .ok (jsSet temp (t.pattern.getD "") (mergeInto existed t))
      | none =>
        if t.regex = some "true" then
          .ok (jsSet temp ("/" ++ t.pattern.getD "" ++ "/") (newMergedTerm t))
        else .ok (jsSet temp (t.pattern.getD "") (newMergedTerm t))

/-- The main loop (lines 149–195) started from an arbitrary accumulator. -/
def buildTempFrom : List (String × MergedTerm) → List SourceTerm →
    Except String (List (String × MergedTerm))
  | temp, [] => .ok temp
  | temp, t :: ts =>
    match processTerm temp t with
    | .ok temp2 => buildTempFrom temp2 ts
    | .error e => .error e

/-- The main loop started from the empty `tempFormat.terms` (line 147). -/
def buildTemp (ts : List SourceTerm) : Except String (List (String × MergedTerm)) :=
  buildTempFrom [] ts

/-- The flattening loop (lines 198–201): enumerate the keys in JavaScript
`for…in` order and push `{ pattern: key, ...tempFormat.terms[key] }`. -/
def flattenTemp (temp : List (String × MergedTerm)) : List OutputTerm :=
  (jsKeyOrder (temp.map Prod.fst)).filterMap fun k =>
    (List.lookup k temp).map fun m => { pattern := k, data := m }

/-- `VnrToYagtFormat` on the parsed term list (the body of lines 145–204;
the path extraction `object.grimoire.terms.term` on line 146 is the caller's
parsed-tree shape and is taken as given). -/
def VnrToYagtFormat (ts : List SourceTerm) : Except String (List OutputTerm) :=
  (buildTemp ts).map flattenTemp

/-- A string made purely of decimal digits (the spec's "purely numeric"
pattern, e.g. `"42"`). -/
def isPurelyNumeric (s : String) : Bool :=
  !s.isEmpty && s.toList.all jsDigit

/-- Well-formedness of one accumulating record: the singular `sourceLanguage`
and the `sourceLanguages` array never coexist, the array exists exactly when
the `multipleSourceLanguages` flag is set, and it then holds at least two
pairwise-distinct values. -/
def MergedWF (m : MergedTerm) : Prop :=
  (m.multipleSourceLanguages = true →
    m.sourceLanguage = none ∧ m.sourceLanguages.Nodup ∧ 2 ≤ m.sourceLanguages.length) ∧
  (m.multipleSourceLanguages = false → m.sourceLanguages = [])

/-- Well-formedness of the whole accumulator: keys are pairwise distinct,
no key is array-index-like (so `for…in` enumerates them in insertion
order), and every record is well-formed. -/
def TempWF (temp : List (String × MergedTerm)) : Prop :=
  (temp.map Prod.fst).Nodup ∧
    ∀ km ∈ temp, isArrayIndexKey km.1 = false ∧ MergedWF km.2

/-- The conditions under which the loop body neither throws nor skips a
record whose pattern is `p`: the `$` attribute object is present, `text` and
`pattern` are truthy, the pattern does not coerce to a number, and its
length exceeds 1. -/
def EligiblePat (t : SourceTerm) (p : String) : Prop :=
  t.attr.isSome = true ∧ jsTruthy t.text = true ∧ t.pattern = some p ∧
    p.isEmpty = false ∧ jsStringIsNaN p = true ∧ 1 < p.length

/-- A translation-typed term record with the given fields. -/
def mkTrans (src lang txt pat rgx cmt : Option String) : SourceTerm :=
  { attr := some { type := some "trans" }
    sourceLanguage := src
    language := lang
    text := txt
    pattern := pat
    regex := rgx
    comment := cmt }

/-- A well-formed term whose `sourceLanguage` is `"en"` and whose `type` is
`"x"` — the eligibility filter of the claim should drop it. -/
def termEnNonTrans : SourceTerm :=
  { attr := some { type := some "x" }
    sourceLanguage := some "en"
    language := some "en"
    text := some "hi"
    pattern := some "ab"
    regex := none
    comment := none }

/-- A record with no `$` attribute object at all. -/
def termNoAttr : SourceTerm :=
  { attr := none
    sourceLanguage := some "ja"
    language := some "en"
    text := some "hi"
    pattern := some "ab"
    regex := none
    comment := none }

/-- Regex-flagged term, pattern `foo`, English text, with a comment. -/
def regexFooEn : SourceTerm :=
  mkTrans (some "ja") (some "en") (some "hi") (some "foo") (some "true") (some "c1")

/-- Regex-flagged term, pattern `foo`, French text. -/
def regexFooFr : SourceTerm :=
  mkTrans (some "ja") (some "fr") (some "bye") (some "foo") (some "true") none

/-- Plain (non-regex) term, pattern `foo`, English text. -/
def plainFooEn : SourceTerm :=
  mkTrans (some "ja") (some "en") (some "hi") (some "foo") none none

/-- Regex-flagged term, pattern `bar`, English text. -/
def regexBarEn : SourceTerm :=
  mkTrans (some "ja") (some "en") (some "one") (some "bar") (some "true") none

/-- Regex-flagged term, pattern `bar`, French text. -/
def regexBarFr : SourceTerm :=
  mkTrans (some "ja") (some "fr") (some "two") (some "bar") (some "true") none

/-- Regex-flagged term, pattern `qux`, Japanese source. -/
def regexQuxJa : SourceTerm :=
  mkTrans (some "ja") (some "en") (some "hi") (some "qux") (some "true") none

/-- Regex-flagged term, pattern `qux`, English source. -/
def regexQuxEn : SourceTerm :=
  mkTrans (some "en") (some "fr") (some "bye") (some "qux") (some "true") none

/-- Regex-flagged term, pattern `zed`, Japanese source. -/
def regexZedJa : SourceTerm :=
  mkTrans (some "ja") (some "en") (some "hi") (some "zed") (some "true") none

/-- Regex-flagged term, pattern `zed`, English source. -/
def regexZedEn : SourceTerm :=
  mkTrans (some "en") (some "fr") (some "bye") (some "zed") (some "true") none

/-- Plain term, pattern `pp`, carrying no comment. -/
def ppFirst : SourceTerm :=
  mkTrans (some "ja") (some "en") (some "hi") (some "pp") none none

/-- Plain term, pattern `pp`, carrying a comment. -/
def ppSecond : SourceTerm :=
  mkTrans (some "ja") (some "fr") (some "bye") (some "pp") none (some "hi there")

/-- Plain term, pattern `zz`. -/
def plainZz : SourceTerm :=
  mkTrans (some "ja") (some "en") (some "hi") (some "zz") none none

/-- Plain term, pattern `aa`. -/
def plainAa : SourceTerm :=
  mkTrans (some "ja") (some "en") (some "hi") (some "aa") none none

/-- Plain term, pattern `mx`, Japanese source. -/
def plainMxJa : SourceTerm :=
  mkTrans (some "ja") (some "en") (some "hi") (some "mx") none none

/-- Plain term, pattern `mx`, English source. -/
def plainMxEn : SourceTerm :=
  mkTrans (some "en") (some "fr") (some "bye") (some "mx") none none

/-- Eligible term whose pattern is the purely numeric `42`. -/
def numericPatTerm : SourceTerm :=
  mkTrans (some "ja") (some "en") (some "hi") (some "42") none none

/-- C1: the claim says a term whose `sourceLanguage` is not `"ja"` or whose
`type` is not `"trans"` is dropped.  The source's conditions
`!term.sourceLanguage === "ja"` and `!term.$.type === "trans"` (lines
151–152) negate the operand before comparing, so a boolean is compared
against a string and the conditions are always false: this term with
`sourceLanguage = "en"` and `type = "x"` is fully converted and appears in
the output. -/
theorem c1_sourceLanguage_type_filter_not_enforced :
    VnrToYagtFormat [termEnNonTrans] =
      .ok [{ pattern := "ab"
             data := { sourceLanguage := some "en"
                       multipleSourceLanguages := false
                       sourceLanguages := []
                       comment := none
                       fields := [("en", "hi")] } }] ∧
    termEnNonTrans.sourceLanguage = some "en" ∧
    termEnNonTrans.attr = some { type := some "x" } :=
  ⟨rfl, rfl, rfl⟩

/-- C2: the claim says the merge lookup uses the effective pattern key, so a
second regex term with the same pattern text merges into the first's record.
The source looks up the RAW pattern (line 159) but inserts regex terms under
`/pattern/` (line 191), so the second regex `foo` term misses the lookup,
builds a fresh record and replaces the first at key `/foo/`: the English
text and the comment of the first term are gone from the output. -/
theorem c2_regex_duplicate_replaces_instead_of_merging :
    VnrToYagtFormat [regexFooEn, regexFooFr] =
      .ok [{ pattern := "/foo/"
             data := { sourceLanguage := some "ja"
                       multipleSourceLanguages := false
                       sourceLanguages := []
                       comment := none
                       fields := [("fr", "bye")] } }] ∧
    regexFooEn.language = some "en" ∧ regexFooEn.comment = some "c1" :=
  ⟨rfl, rfl, rfl⟩

/-- C3: the claim says a plain `foo` term and a regex `foo` term always
yield two distinct output terms.  In the order plain-then-regex, the regex
term's RAW-pattern lookup (line 159) finds the plain term's record and
merges into it: the output is a single term with key `"foo"` holding both
translations, and no `"/foo/"` term exists. -/
theorem c3_plain_and_regex_collide_in_plain_first_order :
    VnrToYagtFormat [plainFooEn, regexFooFr] =
      .ok [{ pattern := "foo"
             data := { sourceLanguage := some "ja"
                       multipleSourceLanguages := false
                       sourceLanguages := []
                       comment := none
                       fields := [("en", "hi"), ("fr", "bye")] } }] ∧
    regexFooFr.regex = some "true" ∧ plainFooEn.regex = none :=
  ⟨rfl, rfl, rfl⟩

/-- C4: the claim says the output term for a key has one field per distinct
language seen among eligible terms with that key.  Both regex `bar` terms
have effective key `/bar/`; the first carries language `en`, but the second
replaces its record (raw-pattern lookup misses, line 159 versus line 191),
so the output term for `/bar/` has no `en` field at all. -/
theorem c4_language_field_lost_on_regex_replacement :
    VnrToYagtFormat [regexBarEn, regexBarFr] =
      .ok [{ pattern := "/bar/"
             data := { sourceLanguage := some "ja"
                       multipleSourceLanguages := false
                       sourceLanguages := []
                       comment := none
                       fields := [("fr", "two")] } }] ∧
    regexBarEn.language = some "en" ∧ regexBarEn.regex = some "true" ∧
    regexBarFr.regex = some "true" :=
  ⟨rfl, rfl, rfl, rfl⟩

/-- Counterexample to C6: a record with no `$` attribute object makes the
loop body throw a `TypeError` while evaluating `term.$.type` (line 152),
instead of being silently filtered out. -/
theorem c6_counterexample_missing_attr_throws :
    VnrToYagtFormat [termNoAttr] = .error "TypeError: cannot read type of undefined" ∧
    termNoAttr.attr = none :=
  ⟨rfl, rfl⟩

/-- Counterexample to C7: terms with source languages `ja` and `en` both
contribute to pattern key `/qux/`, yet the final record carries the singular
`sourceLanguage` (the second term's) and no `sourceLanguages` array — the
second regex term replaced the first record wholesale instead of merging
(raw-pattern lookup, line 159). -/
theorem c7_counterexample_replacement_discards_sources :
    VnrToYagtFormat [regexQuxJa, regexQuxEn] =
      .ok [{ pattern := "/qux/"
             data := { sourceLanguage := some "en"
                       multipleSourceLanguages := false
                       sourceLanguages := []
                       comment := none
                       fields := [("fr", "bye")] } }] ∧
    regexQuxJa.sourceLanguage = some "ja" ∧ regexQuxEn.sourceLanguage = some "en" :=
  ⟨rfl, rfl, rfl⟩

/-- Counterexample to C8: the first eligible term for key `pp` carries no
comment and the second carries one; the claim says the output comment is the
second term's, but the merge path (lines 161–179) never writes `comment`,
so the output term for `pp` has none. -/
theorem c8_counterexample_later_comment_ignored :
    VnrToYagtFormat [ppFirst, ppSecond] =
      .ok [{ pattern := "pp"
             data := { sourceLanguage := some "ja"
                       multipleSourceLanguages := false
                       sourceLanguages := []
                       comment := none
                       fields := [("en", "hi"), ("fr", "bye")] } }] ∧
    ppFirst.comment = none ∧ ppSecond.comment = some "hi there" :=
  ⟨rfl, rfl, rfl⟩

/-- Counterexample to C10: pattern key `/zed/` receives terms with two
distinct source languages (`ja`, then `en`), yet the output term carries no
`multipleSourceLanguages` flag — the second regex term replaced the record
(raw-pattern lookup, line 159) instead of merging. -/
theorem c10_counterexample_flag_lost_on_replacement :
    VnrToYagtFormat [regexZedJa, regexZedEn] =
      .ok [{ pattern := "/zed/"
             data := { sourceLanguage := some "en"
                       multipleSourceLanguages := false
                       sourceLanguages := []
                       comment := none
                       fields := [("fr", "bye")] } }] ∧
    regexZedJa.sourceLanguage = some "ja" ∧ regexZedEn.sourceLanguage = some "en" :=
  ⟨rfl, rfl, rfl⟩

/-- Digit code points and the numeric-coercion whitespace set are disjoint. -/
theorem not_isJsWhitespace_of_jsDigit {c : Char} (h : jsDigit c = true) :
    isJsWhitespace c = false := by
  have h2 : 48 ≤ c.toNat ∧ c.toNat ≤ 57 := by simpa [jsDigit] using h
  simp only [isJsWhitespace, Bool.or_eq_false_iff, decide_eq_false_iff_not]
  omega

/-- Dropping while a predicate that holds nowhere changes nothing. -/
theorem dropWhile_eq_self_of_all {p : Char → Bool} {cs : List Char}
    (h : ∀ c ∈ cs, p c = false) : cs.dropWhile p = cs := by
  cases cs with
  | nil => rfl
  | cons c rest => simp [List.dropWhile_cons, h c (List.mem_cons_self c rest)]

/-- Trimming does not change an all-digit character list. -/
theorem trimJs_eq_self_of_digits {cs : List Char} (h : ∀ c ∈ cs, jsDigit c = true) :
    trimJs cs = cs := by
  have h1 : cs.dropWhile isJsWhitespace = cs :=
    dropWhile_eq_self_of_all fun c hc => not_isJsWhitespace_of_jsDigit (h c hc)
  have h2 : cs.reverse.dropWhile isJsWhitespace = cs.reverse :=
    dropWhile_eq_self_of_all fun c hc =>
      not_isJsWhitespace_of_jsDigit (h c (List.mem_reverse.mp hc))
  simp [trimJs, h1, h2]

/-- A digit character differs from any character with another code point. -/
theorem decide_char_eq_false {c d : Char} (h : c.toNat ≠ d.toNat) :
    decide (c = d) = false := by
  simp only [decide_eq_false_iff_not]
  exact fun he => h (congrArg Char.toNat he)

/-- An all-digit non-empty character list is an unsigned decimal literal. -/
theorem unsignedDecOk_digits {cs : List Char} (hne : cs ≠ [])
    (h : ∀ c ∈ cs, jsDigit c = true) : unsignedDecOk cs = true := by
  unfold unsignedDecOk
  by_cases hI : cs = "Infinity".toList
  · simp [hI]
  · rw [if_neg hI]
    have ht : cs.takeWhile jsDigit = cs := List.takeWhile_eq_self_iff.mpr h
    have hd : cs.dropWhile jsDigit = [] := List.dropWhile_eq_nil_iff.mpr h
    have hemp : cs.isEmpty = false := List.isEmpty_eq_false.mpr hne
    simp only [ht, hd, hemp]
    simp

/-- An all-digit non-empty character list is a numeric literal. -/
theorem strNumericOk_digits {cs : List Char} (hne : cs ≠ [])
    (h : ∀ c ∈ cs, jsDigit c = true) : strNumericOk cs = true := by
  match cs with
  | [] => exact absurd rfl hne
  | c :: rest =>
    have hc : 48 ≤ c.toNat ∧ c.toNat ≤ 57 := by
      simpa [jsDigit] using h c (List.mem_cons_self c rest)
    have hpm : (decide (c = '+') || decide (c = '-')) = false := by
      rw [Bool.or_eq_false_iff]
      have e1 : ('+').toNat = 43 := rfl
      have e2 : ('-').toNat = 45 := rfl
      exact ⟨decide_char_eq_false (by omega), decide_char_eq_false (by omega)⟩
    simp only [strNumericOk, hpm, Bool.false_eq_true, if_false]
    match rest with
    | [] =>
      simp only [nonDecOrDec]
      exact unsignedDecOk_digits hne h
    | c2 :: r =>
      have hc2 : 48 ≤ c2.toNat ∧ c2.toNat ≤ 57 := by
        simpa [jsDigit] using h c2 (by simp)
      have hx : (decide (c2 = 'x') || decide (c2 = 'X')) = false := by
        rw [Bool.or_eq_false_iff]
        have e1 : ('x').toNat = 120 := rfl
        have e2 : ('X').toNat = 88 := rfl
        exact ⟨decide_char_eq_false (by omega), decide_char_eq_false (by omega)⟩
      have ho : (decide (c2 = 'o') || decide (c2 = 'O')) = false := by
        rw [Bool.or_eq_false_iff]
        have e1 : ('o').toNat = 111 := rfl
        have e2 : ('O').toNat = 79 := rfl
        exact ⟨decide_char_eq_false (by omega), decide_char_eq_false (by omega)⟩
      have hb : (decide (c2 = 'b') || decide (c2 = 'B')) = false := by
        rw [Bool.or_eq_false_iff]
        have e1 : ('b').toNat = 98 := rfl
        have e2 : ('B').toNat = 66 := rfl
        exact ⟨decide_char_eq_false (by omega), decide_char_eq_false (by omega)⟩
      simp only [nonDecOrDec, hx, ho, hb, Bool.and_false, Bool.false_eq_true, if_false]
      exact unsignedDecOk_digits hne h

/-- A purely numeric pattern string coerces to a number: `isNaN` is false
on it, so the filter on line 155 excludes it. -/
theorem jsStringIsNaN_purelyNumeric {s : String} (h : isPurelyNumeric s = true) :
    jsStringIsNaN s = false := by
  have h2 : s.isEmpty = false ∧ s.toList.all jsDigit = true := by
    simpa [isPurelyNumeric, Bool.and_eq_true] using h
  have hall : ∀ c ∈ s.toList, jsDigit c = true := List.all_eq_true.mp h2.2
  have hnil : s.toList ≠ [] := by
    intro hn
    have hs : s = "" := by
      apply String.ext
      simpa [String.toList] using hn
    rw [hs] at h2
    exact absurd h2.1 (by decide)
  have htrim : trimJs s.toList = s.toList := trimJs_eq_self_of_digits hall
  have hemp : (s.toList).isEmpty = false := List.isEmpty_eq_false.mpr hnil
  simp only [jsStringIsNaN, htrim, hemp, Bool.false_eq_true, if_false,
    strNumericOk_digits hnil hall, Bool.not_true]

/-- An array-index-like key is a purely numeric string, hence coerces to a
number. -/
theorem jsStringIsNaN_of_isArrayIndexKey {k : String} (hk : isArrayIndexKey k = true) :
    jsStringIsNaN k = false := by
  have h2 : (!k.toList.isEmpty && k.toList.all jsDigit) = true := by
    have := hk
    unfold isArrayIndexKey at this
    rw [Bool.and_eq_true, Bool.and_eq_true] at this
    exact this.1.1
  rw [Bool.and_eq_true] at h2
  apply jsStringIsNaN_purelyNumeric
  unfold isPurelyNumeric
  rw [Bool.and_eq_true]
  refine ⟨?_, h2.2⟩
  have hkl : k.toList ≠ [] := by
    intro hn
    rw [hn] at h2
    exact absurd h2.1 (by decide)
  have hk0 : k ≠ "" := by
    intro hk0
    exact hkl (by simp [hk0])
  have hef : k.isEmpty = false := by
    rw [Bool.eq_false_iff]
    intro htrue
    exact hk0 ((String.isEmpty_iff k).mp htrue)
  simp [hef]

/-- A key whose pattern does not coerce to a number is not array-index-like. -/
theorem not_index_of_isNaN {k : String} (h : jsStringIsNaN k = true) :
    isArrayIndexKey k = false := by
  cases hidx : isArrayIndexKey k with
  | false => rfl
  | true => rw [jsStringIsNaN_of_isArrayIndexKey hidx] at h; exact absurd h (by simp)

/-- A slash-wrapped regex key is never array-index-like. -/
theorem not_index_wrapped (p : String) : isArrayIndexKey ("/" ++ p ++ "/") = false := by
  have hl : ("/" ++ p ++ "/").toList = '/' :: (p.toList ++ ['/']) := by
    simp [String.toList, String.data_append]
  have hdig : jsDigit '/' = false := by decide
  unfold isArrayIndexKey
  rw [hl]
  simp [hdig]

/-- Assigning to an existing key leaves the key sequence unchanged (the
JavaScript overwrite keeps the property's position). -/
theorem jsSet_map_fst_of_mem {temp : List (String × MergedTerm)} {k : String}
    (v : MergedTerm) (h : k ∈ temp.map Prod.fst) :
    (jsSet temp k v).map Prod.fst = temp.map Prod.fst := by
  induction temp with
  | nil => simp at h
  | cons kv rest ih =>
    obtain ⟨k2, v2⟩ := kv
    by_cases hk : k2 = k
    · subst hk
      simp [jsSet]
    · have hmem : k ∈ rest.map Prod.fst := by
        rcases List.mem_cons.mp h with h1 | h1
        · exact absurd h1.symm hk
        · exact h1
      simp [jsSet, hk, ih hmem]

/-- Assigning to a fresh key appends it to the key sequence. -/
theorem jsSet_map_fst_of_not_mem {temp : List (String × MergedTerm)} {k : String}
    (v : MergedTerm) (h : k ∉ temp.map Prod.fst) :
    (jsSet temp k v).map Prod.fst = temp.map Prod.fst ++ [k] := by
  induction temp with
  | nil => simp [jsSet]
  | cons kv rest ih =>
    obtain ⟨k2, v2⟩ := kv
    have hk : ¬k2 = k := by
      intro he
      exact h (by simp [he])
    have hmem : k ∉ rest.map Prod.fst := by
      intro hm
      exact h (by simp [hm])
    simp [jsSet, hk, ih hmem]

/-- Every entry of an assignment result is an old entry or the new pair. -/
theorem mem_jsSet {temp : List (String × MergedTerm)} {k k2 : String}
    {v v2 : MergedTerm} (h : (k2, v2) ∈ jsSet temp k v) :
    (k2, v2) ∈ temp ∨ (k2 = k ∧ v2 = v) := by
  induction temp with
  | nil =>
    simp [jsSet] at h
    exact Or.inr ⟨h.1, h.2⟩
  | cons kv rest ih =>
    obtain ⟨k3, v3⟩ := kv
    by_cases hk : k3 = k
    · subst hk
      simp only [jsSet, if_pos rfl] at h
      rcases List.mem_cons.mp h with h1 | h1
      · exact Or.inr ⟨congrArg Prod.fst h1, congrArg Prod.snd h1⟩
      · exact Or.inl (List.mem_cons_of_mem _ h1)
    · simp only [jsSet, if_neg hk] at h
      rcases List.mem_cons.mp h with h1 | h1
      · exact Or.inl (by simp [h1])
      · rcases ih h1 with h2 | h2
        · exact Or.inl (List.mem_cons_of_mem _ h2)
        · exact Or.inr h2

/-- A successful lookup means the pair is a stored entry. -/
theorem mem_of_lookup_eq_some {temp : List (String × MergedTerm)} {k : String}
    {m : MergedTerm} (h : List.lookup k temp = some m) : (k, m) ∈ temp := by
  induction temp with
  | nil => simp [List.lookup] at h
  | cons kv rest ih =>
    obtain ⟨k2, v2⟩ := kv
    by_cases hk : k = k2
    · subst hk
      simp only [List.lookup, beq_self_eq_true] at h
      simp [← Option.some_inj.mp h]
    · have hbeq : (k == k2) = false := beq_eq_false_iff_ne.mpr hk
      simp only [List.lookup, hbeq] at h
      exact List.mem_cons_of_mem _ (ih h)

/-- A failed lookup means the key is not stored. -/
theorem not_mem_of_lookup_eq_none {temp : List (String × MergedTerm)} {k : String}
    (h : List.lookup k temp = none) : k ∉ temp.map Prod.fst := by
  induction temp with
  | nil => simp
  | cons kv rest ih =>
    obtain ⟨k2, v2⟩ := kv
    by_cases hk : k = k2
    · subst hk
      simp [List.lookup] at h
    · have hbeq : (k == k2) = false := beq_eq_false_iff_ne.mpr hk
      simp only [List.lookup, hbeq] at h
      simp only [List.map_cons, List.mem_cons]
      rintro (h1 | h1)
      · exact hk h1
      · exact ih h h1

/-- A stored key can be looked up. -/
theorem lookup_isSome_of_mem_fst {temp : List (String × MergedTerm)} {k : String}
    (h : k ∈ temp.map Prod.fst) : ∃ m, List.lookup k temp = some m := by
  induction temp with
  | nil => simp at h
  | cons kv rest ih =>
    obtain ⟨k2, v2⟩ := kv
    by_cases hk : k = k2
    · subst hk
      exact ⟨v2, by simp [List.lookup]⟩
    · have hbeq : (k == k2) = false := beq_eq_false_iff_ne.mpr hk
      have hmem : k ∈ rest.map Prod.fst := by
        rw [List.map_cons] at h
        rcases List.mem_cons.mp h with h1 | h1
        · exact absurd h1 hk
        · exact h1
      obtain ⟨m, hm⟩ := ih hmem
      exact ⟨m, by simp [List.lookup, hbeq, hm]⟩

/-- The merge path never writes the `comment` property. -/
theorem mergeInto_comment (m : MergedTerm) (t : SourceTerm) :
    (mergeInto m t).comment = m.comment := by
  unfold mergeInto
  split_ifs <;> rfl

/-- The merge path never unsets the flag, and sets it exactly when the
incoming `sourceLanguage` differs (by strict equality) from the record's. -/
theorem mergeInto_flag (m : MergedTerm) (t : SourceTerm) :
    (mergeInto m t).multipleSourceLanguages =
      (m.multipleSourceLanguages || !decide (m.sourceLanguage = t.sourceLanguage)) := by
  unfold mergeInto
  split_ifs with h1 h2 h3
  · simp [h1]
  · simp [h1, h2]
  · simp [h1, h2]
  · have hf : m.multipleSourceLanguages = false := by
      rw [Bool.eq_false_iff]
      exact h2
    simp [h1, hf]

/-- Merging preserves record well-formedness. -/
theorem mergeInto_wf {m : MergedTerm} (t : SourceTerm) (h : MergedWF m) :
    MergedWF (mergeInto m t) := by
  unfold mergeInto MergedWF
  split_ifs with h1 h2 h3
  · exact h
  · exact h
  · obtain ⟨ha, hb⟩ := h
    constructor
    · intro _
      obtain ⟨hs, hn, hl⟩ := ha h2
      refine ⟨hs, ?_, ?_⟩
      · have hni : t.sourceLanguage ∉ m.sourceLanguages := by
          intro hmem
          exact h3 (List.elem_iff.mpr hmem)
        simp [List.nodup_append, hn, hni]
      · simp
        omega
    · intro hfl
      rw [hfl] at h2
      simp at h2
  · obtain ⟨ha, hb⟩ := h
    have hf : m.multipleSourceLanguages = false := by
      rw [Bool.eq_false_iff]
      exact h2
    constructor
    · intro _
      refine ⟨rfl, ?_, by simp⟩
      simp [h1]
    · intro hfl
      simp at hfl

/-- A fresh record is well-formed. -/
theorem newMergedTerm_wf (t : SourceTerm) : MergedWF (newMergedTerm t) := by
  constructor
  · intro h
    simp [newMergedTerm] at h
  · intro _
    rfl

/-- Merging only ever appends to `sourceLanguages`: earlier entries are
kept, in order, as a prefix. -/
theorem mergeInto_langs_prefix {m : MergedTerm} (t : SourceTerm) (h : MergedWF m) :
    m.sourceLanguages <+: (mergeInto m t).sourceLanguages := by
  unfold mergeInto
  split_ifs with h1 h2 h3
  · exact ⟨[], List.append_nil _⟩
  · exact ⟨[], List.append_nil _⟩
  · exact ⟨[t.sourceLanguage], rfl⟩
  · have hf : m.multipleSourceLanguages = false := by
      rw [Bool.eq_false_iff]
      exact h2
    rw [h.2 hf]
    exact ⟨[m.sourceLanguage, t.sourceLanguage], rfl⟩

/-- Whenever the merged record is in multiple-source mode, the incoming
term's source language was recorded in `sourceLanguages` — unless it was
strictly equal to the record's current singular value (the only way the
"same source language, do nothing" branch fires). -/
theorem mergeInto_captures {m : MergedTerm} (t : SourceTerm)
    (_hfl : (mergeInto m t).multipleSourceLanguages = true) :
    t.sourceLanguage ∈ (mergeInto m t).sourceLanguages ∨
      t.sourceLanguage = m.sourceLanguage := by
  unfold mergeInto
  split_ifs with h1 h2 h3
  · exact Or.inr h1.symm
  · exact Or.inl (List.elem_iff.mp h3)
  · exact Or.inl (by simp)
  · exact Or.inl (by simp)

/-- The loop body preserves accumulator well-formedness. -/
theorem processTerm_wf {temp temp2 : List (String × MergedTerm)} {t : SourceTerm}
    (hw : TempWF temp) (he : processTerm temp t = .ok temp2) : TempWF temp2 := by
  unfold processTerm at he
  split at he
  · exact absurd he (by simp)
  · split at he
    · simp only [Except.ok.injEq] at he
      exact he ▸ hw
    · split at he
      · simp only [Except.ok.injEq] at he
        exact he ▸ hw
      · split at he
        · simp only [Except.ok.injEq] at he
          exact he ▸ hw
        · rename_i hnan0
          have hnan : jsStringIsNaN (t.pattern.getD "") = true := by
            simpa using hnan0
          split at he
          · simp only [Except.ok.injEq] at he
            exact he ▸ hw
          · split at he
            · rename List.lookup _ _ = some _ => hlook
              simp only [Except.ok.injEq] at he
              subst he
              have hmem : (t.pattern.getD "", _) ∈ temp := mem_of_lookup_eq_some hlook
              have hfst : (t.pattern.getD "") ∈ temp.map Prod.fst :=
                List.mem_map.mpr ⟨_, hmem, rfl⟩
              constructor
              · rw [jsSet_map_fst_of_mem _ hfst]
                exact hw.1
              · intro km hkm
                obtain ⟨k2, v2⟩ := km
                rcases mem_jsSet hkm with h2 | h2
                · exact hw.2 _ h2
                · obtain ⟨rfl, rfl⟩ := h2
                  refine ⟨(hw.2 _ hmem).1, mergeInto_wf t (hw.2 _ hmem).2⟩
            · rename List.lookup _ _ = none => hlook
              have hnotmem := not_mem_of_lookup_eq_none hlook
              split at he
              · -- regex insert under the wrapped key
                simp only [Except.ok.injEq] at he
                subst he
                constructor
                · by_cases hwm : ("/" ++ t.pattern.getD "" ++ "/") ∈ temp.map Prod.fst
                  · rw [jsSet_map_fst_of_mem _ hwm]
                    exact hw.1
                  · rw [jsSet_map_fst_of_not_mem _ hwm]
                    simp [List.nodup_append, hw.1, hwm]
                · intro km hkm
                  obtain ⟨k2, v2⟩ := km
                  rcases mem_jsSet hkm with h2 | h2
                  · exact hw.2 _ h2
                  · obtain ⟨rfl, rfl⟩ := h2
                    exact ⟨not_index_wrapped _, newMergedTerm_wf t⟩
              · -- plain insert under the raw pattern
                simp only [Except.ok.injEq] at he
                subst he
                constructor
                · rw [jsSet_map_fst_of_not_mem _ hnotmem]
                  simp [List.nodup_append, hw.1, hnotmem]
                · intro km hkm
                  obtain ⟨k2, v2⟩ := km
                  rcases mem_jsSet hkm with h2 | h2
                  · exact hw.2 _ h2
                  · obtain ⟨rfl, rfl⟩ := h2
                    exact ⟨not_index_of_isNaN hnan, newMergedTerm_wf t⟩

/-- The loop preserves accumulator well-formedness. -/
theorem buildTempFrom_wf {ts : List SourceTerm} :
    ∀ {temp temp2 : List (String × MergedTerm)}, TempWF temp →
      buildTempFrom temp ts = .ok temp2 → TempWF temp2 := by
  induction ts with
  | nil =>
    intro temp temp2 hw he
    simp only [buildTempFrom, Except.ok.injEq] at he
    exact he ▸ hw
  | cons t rest ih =>
    intro temp temp2 hw he
    unfold buildTempFrom at he
    split at he
    · rename_i tempMid hmid
      exact ih (processTerm_wf hw hmid) he
    · exact absurd he (by simp)

/-- The accumulator built from the empty object is well-formed. -/
theorem buildTemp_wf {ts : List SourceTerm} {temp : List (String × MergedTerm)}
    (h : buildTemp ts = .ok temp) : TempWF temp := by
  refine buildTempFrom_wf ?_ h
  exact ⟨List.nodup_nil, by simp⟩

/-- With no array-index-like key present, `for…in` enumeration is exactly
insertion order. -/
theorem jsKeyOrder_eq_self {keys : List String}
    (h : ∀ k ∈ keys, isArrayIndexKey k = false) : jsKeyOrder keys = keys := by
  unfold jsKeyOrder
  have h1 : keys.filter isArrayIndexKey = [] :=
    List.filter_eq_nil_iff.mpr fun a ha => by simp [h a ha]
  have h2 : (keys.filter fun k => !isArrayIndexKey k) = keys :=
    List.filter_eq_self.mpr fun a ha => by simp [h a ha]
  rw [h1, h2]
  simp [sortByNat]

/-- Flattening over a list of keys that are all stored yields exactly those
keys as the `pattern` fields. -/
theorem filterMap_lookup_keys (temp : List (String × MergedTerm)) :
    ∀ keys : List String, (∀ k ∈ keys, k ∈ temp.map Prod.fst) →
      ((keys.filterMap fun k =>
          (List.lookup k temp).map fun m => OutputTerm.mk k m).map OutputTerm.pattern) =
        keys := by
  intro keys
  induction keys with
  | nil => intro _; rfl
  | cons k ks ih =>
    intro h
    obtain ⟨m, hm⟩ := lookup_isSome_of_mem_fst (h k (by simp))
    rw [List.filterMap_cons, hm]
    simp only [Option.map_some', List.map_cons]
    rw [ih fun a ha => h a (by simp [ha])]

/-- The flattening loop emits the stored keys, in storage order, as the
`pattern` fields of the output. -/
theorem flattenTemp_map_pattern {temp : List (String × MergedTerm)} (hw : TempWF temp) :
    (flattenTemp temp).map OutputTerm.pattern = temp.map Prod.fst := by
  unfold flattenTemp
  have hidx : ∀ k ∈ temp.map Prod.fst, isArrayIndexKey k = false := by
    intro k hk
    obtain ⟨⟨k2, v⟩, hmem, rfl⟩ := List.mem_map.mp hk
    exact (hw.2 _ hmem).1
  rw [jsKeyOrder_eq_self hidx]
  exact filterMap_lookup_keys temp _ fun k hk => hk

/-- C5: the output sequence has exactly one entry per stored pattern key
and lists them in first-insertion order.  The keys of the accumulator are
built in first-insertion order (`jsSet` appends a fresh key and keeps the
position of an existing one), they are pairwise distinct, and the final
`for…in` enumeration does not reorder them, because no stored key is
array-index-like: raw pattern keys must fail numeric coercion (line 155)
and regex keys start with a slash. -/
theorem c5_output_order_first_insertion (ts : List SourceTerm)
    (temp : List (String × MergedTerm)) (h : buildTemp ts = .ok temp) :
    VnrToYagtFormat ts = .ok (flattenTemp temp) ∧
      (flattenTemp temp).map OutputTerm.pattern = temp.map Prod.fst ∧
      (temp.map Prod.fst).Nodup := by
  have hw := buildTemp_wf h
  refine ⟨?_, flattenTemp_map_pattern hw, hw.1⟩
  unfold VnrToYagtFormat
  rw [h]
  rfl

/-- Witness for C5 at a concrete two-term input whose keys `zz`, `aa` are
not in alphabetical order: the output order is the insertion order. -/
theorem c5_output_order_witness :
    VnrToYagtFormat [plainZz, plainAa] =
      .ok (flattenTemp
        [("zz", MergedTerm.mk (some "ja") false [] none [("en", "hi")]),
         ("aa", MergedTerm.mk (some "ja") false [] none [("en", "hi")])]) ∧
      ((flattenTemp
        [("zz", MergedTerm.mk (some "ja") false [] none [("en", "hi")]),
         ("aa", MergedTerm.mk (some "ja") false [] none [("en", "hi")])]).map
          OutputTerm.pattern =
        ([("zz", MergedTerm.mk (some "ja") false [] none [("en", "hi")]),
          ("aa", MergedTerm.mk (some "ja") false [] none [("en", "hi")])]).map Prod.fst) ∧
      (([("zz", MergedTerm.mk (some "ja") false [] none [("en", "hi")]),
         ("aa", MergedTerm.mk (some "ja") false [] none [("en", "hi")])]).map
          Prod.fst).Nodup :=
  c5_output_order_first_insertion _ _ rfl

/-- A term whose pattern is purely numeric or no longer than one character
is skipped by the loop body (provided the `$` read does not throw): the
accumulator is unchanged. -/
theorem processTerm_skip_numeric {temp : List (String × MergedTerm)}
    {t : SourceTerm} {p : String} (hp : t.pattern = some p)
    (ha : t.attr.isSome = true) (h : isPurelyNumeric p = true ∨ p.length ≤ 1) :
    processTerm temp t = .ok temp := by
  obtain ⟨a, ha2⟩ := Option.isSome_iff_exists.mp ha
  unfold processTerm
  rw [ha2, hp]
  cases htx : jsTruthy t.text with
  | false => simp
  | true =>
    simp only [htx, Bool.not_true, Bool.false_eq_true, if_false, Option.getD_some]
    cases hpe : p.isEmpty with
    | true => simp [jsTruthy, hpe]
    | false =>
      simp only [jsTruthy, hpe, Bool.not_false, if_true, Bool.not_true,
        Bool.false_eq_true, if_false]
      rcases h with hnum | hshort
      · rw [jsStringIsNaN_purelyNumeric hnum]
        simp
      · cases hnan : jsStringIsNaN p with
        | false => simp
        | true =>
          have hlen : decide (p.length > 1) = false := by
            simp only [decide_eq_false_iff_not]
            omega
          simp [hlen]

/-- Removing a term the loop body skips from anywhere in the input does not
change the run. -/
theorem buildTempFrom_skip {t : SourceTerm}
    (hstep : ∀ temp, processTerm temp t = .ok temp) :
    ∀ (pre post : List SourceTerm) (temp : List (String × MergedTerm)),
      buildTempFrom temp (pre ++ t :: post) = buildTempFrom temp (pre ++ post) := by
  intro pre
  induction pre with
  | nil =>
    intro post temp
    simp only [List.nil_append]
    conv_lhs => rw [buildTempFrom]
    rw [hstep temp]
  | cons a pre2 ih =>
    intro post temp
    simp only [List.cons_append]
    rw [buildTempFrom, buildTempFrom]
    cases hpa : processTerm temp a with
    | ok t2 => simp only [ih]
    | error e => rfl

/-- C9: a term whose pattern string is purely numeric, or of length at most
1, contributes nothing: the whole conversion is the same as on the input
without it (the record must carry a `$` attribute object, otherwise reading
`$.type` throws before the pattern checks are reached). -/
theorem c9_numeric_or_short_patterns_excluded (t : SourceTerm) (p : String)
    (hp : t.pattern = some p) (ha : t.attr.isSome = true)
    (h : isPurelyNumeric p = true ∨ p.length ≤ 1) :
    ∀ pre post : List SourceTerm,
      VnrToYagtFormat (pre ++ t :: post) = VnrToYagtFormat (pre ++ post) := by
  intro pre post
  have hstep : ∀ temp, processTerm temp t = .ok temp := fun temp =>
    processTerm_skip_numeric hp ha h
  unfold VnrToYagtFormat buildTemp
  rw [buildTempFrom_skip hstep pre post]

/-- Witness for C9: the numeric-pattern term `42` is dropped from a mixed
input, and a length-1 pattern is likewise covered by the theorem. -/
theorem c9_numeric_excluded_witness :
    VnrToYagtFormat [numericPatTerm, plainAa] = VnrToYagtFormat [plainAa] :=
  c9_numeric_or_short_patterns_excluded numericPatTerm "42" rfl rfl
    (Or.inl (by decide)) [] [plainAa]

/-- C6 (amended): the loop body is total on every record that carries the
`$` attribute object — all malformed shapes short of a missing `$` are
filtered, not errors — while a record without `$` throws a `TypeError`. -/
theorem c6_amended_total_given_attr :
    ∀ (temp : List (String × MergedTerm)) (t : SourceTerm),
      (t.attr.isSome = true → ∃ temp2, processTerm temp t = Except.ok temp2) ∧
      (t.attr = none →
        processTerm temp t = Except.error "TypeError: cannot read type of undefined") := by
  intro temp t
  constructor
  · intro h
    obtain ⟨a, ha⟩ := Option.isSome_iff_exists.mp h
    cases hres : processTerm temp t with
    | ok t2 => exact ⟨t2, rfl⟩
    | error e =>
      unfold processTerm at hres
      rw [ha] at hres
      split at hres
      · rename_i heq
        exact Option.noConfusion heq
      · split at hres
        · exact Except.noConfusion hres
        · split at hres
          · exact Except.noConfusion hres
          · split at hres
            · exact Except.noConfusion hres
            · split at hres
              · exact Except.noConfusion hres
              · split at hres
                · exact Except.noConfusion hres
                · split at hres
                  · exact Except.noConfusion hres
                  · exact Except.noConfusion hres
  · intro h
    unfold processTerm
    rw [h]

/-- Witness for C6: a concrete record with `$` present is processed without
an exception. -/
theorem c6_amended_witness :
    ∃ temp2, processTerm [] ppFirst = Except.ok temp2 :=
  (c6_amended_total_given_attr [] ppFirst).1 rfl

/-- C7 (amended): every stored record carries either the singular
`sourceLanguage` or the `sourceLanguages` array (with the flag), never
both, the array then being duplicate-free with at least two entries;
merging only appends to the array (earlier entries stay as a prefix, in
first-seen order) and records the incoming source language unless it was
strictly equal to the record's singular value.  The array reflects only the
current record: a regex-flagged duplicate replaces the record wholesale
(see the counterexample), discarding earlier contributions. -/
theorem c7_amended_source_language_tracking :
    (∀ (ts : List SourceTerm) (temp : List (String × MergedTerm)),
        buildTemp ts = .ok temp → ∀ km ∈ temp, MergedWF km.2) ∧
    (∀ (m : MergedTerm) (t : SourceTerm), MergedWF m →
        m.sourceLanguages <+: (mergeInto m t).sourceLanguages) ∧
    (∀ (m : MergedTerm) (t : SourceTerm),
        (mergeInto m t).multipleSourceLanguages = true →
        t.sourceLanguage ∈ (mergeInto m t).sourceLanguages ∨
          t.sourceLanguage = m.sourceLanguage) :=
  ⟨fun _ _ h km hkm => ((buildTemp_wf h).2 km hkm).2,
   fun _ t hm => mergeInto_langs_prefix t hm,
   fun _ t h => mergeInto_captures t h⟩

/-- Witness for C7 at a concrete run in which two source languages merged
into the `mx` record: the resulting record is well-formed (array present,
singular field gone, both languages listed once, first-seen order). -/
theorem c7_amended_witness :
    MergedWF
      (MergedTerm.mk none true [some "ja", some "en"] none
        [("en", "hi"), ("fr", "bye")]) :=
  c7_amended_source_language_tracking.1 [plainMxJa, plainMxEn]
    [("mx",
      MergedTerm.mk none true [some "ja", some "en"] none
        [("en", "hi"), ("fr", "bye")])] rfl
    ("mx",
      MergedTerm.mk none true [some "ja", some "en"] none
        [("en", "hi"), ("fr", "bye")])
    (List.Mem.head _)

/-- C10 (amended): the flag is set by a merge exactly when the incoming
source language differs (by strict equality) from the record's, it is never
unset by later merges (the equation is monotone in the old flag), fresh
records never carry it, and in every reachable accumulator a record carries
the flag exactly when it carries a non-empty `sourceLanguages` array.  A
regex-flagged duplicate replaces its record wholesale, so a key that
received two source languages can still end up without the flag (see the
counterexample). -/
theorem c10_amended_flag_semantics :
    (∀ (m : MergedTerm) (t : SourceTerm),
        (mergeInto m t).multipleSourceLanguages =
          (m.multipleSourceLanguages || !decide (m.sourceLanguage = t.sourceLanguage))) ∧
    (∀ t : SourceTerm, (newMergedTerm t).multipleSourceLanguages = false) ∧
    (∀ (ts : List SourceTerm) (temp : List (String × MergedTerm)),
        buildTemp ts = .ok temp → ∀ km ∈ temp,
          (km.2.multipleSourceLanguages = true ↔ km.2.sourceLanguages ≠ [])) := by
  refine ⟨mergeInto_flag, fun t => rfl, ?_⟩
  intro ts temp h km hkm
  have hwf := ((buildTemp_wf h).2 km hkm).2
  constructor
  · intro hfl hnil
    have hlen := (hwf.1 hfl).2.2
    rw [hnil] at hlen
    simp at hlen
  · intro hne
    cases hfl : km.2.multipleSourceLanguages with
    | false => exact absurd (hwf.2 hfl) hne
    | true => rfl

/-- Witness for C10: the reachable `mx` record from the two-source run has
the flag set and a non-empty array, matching the third conjunct. -/
theorem c10_amended_witness :
    ((MergedTerm.mk none true [some "ja", some "en"] none
        [("en", "hi"), ("fr", "bye")]).multipleSourceLanguages = true ↔
      (MergedTerm.mk none true [some "ja", some "en"] none
        [("en", "hi"), ("fr", "bye")]).sourceLanguages ≠ []) :=
  c10_amended_flag_semantics.2.2 [plainMxJa, plainMxEn]
    [("mx",
      MergedTerm.mk none true [some "ja", some "en"] none
        [("en", "hi"), ("fr", "bye")])] rfl
    ("mx",
      MergedTerm.mk none true [some "ja", some "en"] none
        [("en", "hi"), ("fr", "bye")])
    (List.Mem.head _)

/-- An eligible non-regex term processed on the empty accumulator creates
its record under the raw pattern key. -/
theorem jsTruthy_some (s : String) : jsTruthy (some s) = !s.isEmpty := rfl

theorem processTerm_creates {t : SourceTerm} {p : String} (h : EligiblePat t p)
    (hreg : t.regex ≠ some "true") :
    processTerm [] t = .ok [(p, newMergedTerm t)] := by
  obtain ⟨ha1, htx, hp, hpe, hnan, hlen⟩ := h
  obtain ⟨a, ha⟩ := Option.isSome_iff_exists.mp ha1
  unfold processTerm
  rw [ha, hp]
  simp only [htx, Option.getD_some, hnan, jsTruthy_some, hpe, Bool.not_true,
    Bool.not_false, Bool.false_eq_true, if_false, if_true, decide_eq_true hlen]
  simp [List.lookup, hreg, jsSet]

/-- An eligible term whose raw pattern is already stored merges into the
stored record, whatever its own regex flag says. -/
theorem processTerm_merges {t : SourceTerm} {p : String} {m : MergedTerm}
    (h : EligiblePat t p) :
    processTerm [(p, m)] t = .ok [(p, mergeInto m t)] := by
  obtain ⟨ha1, htx, hp, hpe, hnan, hlen⟩ := h
  obtain ⟨a, ha⟩ := Option.isSome_iff_exists.mp ha1
  unfold processTerm
  rw [ha, hp]
  simp only [htx, Option.getD_some, hnan, jsTruthy_some, hpe, Bool.not_true,
    Bool.not_false, Bool.false_eq_true, if_false, if_true, decide_eq_true hlen]
  simp [List.lookup, jsSet]

/-- C8 (amended): the `comment` field of a record is written only when the
record is created — from the creating term's comment when that comment is
truthy, absent otherwise — and merging a later duplicate never writes or
overwrites it, even when the creating term had no comment and the duplicate
has one.  Concretely, for a key created by an eligible non-regex term and
receiving one duplicate, the output comment is exactly the creating term's. -/
theorem c8_amended_comment_from_creating_term :
    (∀ (m : MergedTerm) (t : SourceTerm), (mergeInto m t).comment = m.comment) ∧
    (∀ (t1 t2 : SourceTerm) (p : String), EligiblePat t1 p → EligiblePat t2 p →
        t1.regex ≠ some "true" →
        VnrToYagtFormat [t1, t2] =
          .ok [{ pattern := p, data := mergeInto (newMergedTerm t1) t2 }] ∧
        (mergeInto (newMergedTerm t1) t2).comment =
          (if jsTruthy t1.comment = true then t1.comment else none)) := by
  refine ⟨mergeInto_comment, ?_⟩
  intro t1 t2 p h1 h2 hreg
  have hstep1 := processTerm_creates h1 hreg
  have hstep2 : processTerm [(p, newMergedTerm t1)] t2 =
      .ok [(p, mergeInto (newMergedTerm t1) t2)] := processTerm_merges h2
  constructor
  · have hbuild : buildTemp [t1, t2] = .ok [(p, mergeInto (newMergedTerm t1) t2)] := by
      simp only [buildTemp, buildTempFrom, hstep1, hstep2]
    unfold VnrToYagtFormat
    rw [hbuild]
    have hnan1 := h1.2.2.2.2.1
    have hkeys : ∀ k ∈ [p], isArrayIndexKey k = false := by
      intro k hk
      rw [List.mem_singleton.mp hk]
      exact not_index_of_isNaN hnan1
    simp only [Except.map, Except.ok.injEq]
    unfold flattenTemp
    simp only [List.map_cons, List.map_nil]
    rw [jsKeyOrder_eq_self hkeys]
    simp [List.lookup]
  · rw [mergeInto_comment]
    rfl

/-- Witness for C8 at the concrete `pp` pair: the creating term has no
comment, the duplicate's comment is ignored, the output comment is absent. -/
theorem c8_amended_witness :
    VnrToYagtFormat [ppFirst, ppSecond] =
      .ok [{ pattern := "pp", data := mergeInto (newMergedTerm ppFirst) ppSecond }] ∧
    (mergeInto (newMergedTerm ppFirst) ppSecond).comment =
      (if jsTruthy ppFirst.comment = true then ppFirst.comment else none) :=
  c8_amended_comment_from_creating_term.2 ppFirst ppSecond "pp"
    ⟨rfl, rfl, rfl, rfl, rfl, by decide⟩ ⟨rfl, rfl, rfl, rfl, rfl, by decide⟩
    (by decide)
